import Mathlib

/-!
Verification development for the OpenSeesPy benchmark pipeline.

The Python sources are shallowly embedded here:
* `src/llm.py` — `OpenSeesSingleTurnAgent` (oracle client `call_gemini`,
  code extraction `extract_python_code`, environment resolver
  `get_python_executable`, gated six-step workflow `process_single_turn`,
  CLI entry `main`);
* `src/pipeline/inference.py` — `InferenceEngine` (memoized resolver
  `_get_python_executable`, prompt builder and cleaner `_generate_code`,
  runner `_run_code`, classifier `_analyze_result`, repair loop `run`).

External collaborators (the Gemini HTTP transport, the filesystem, the
subprocess runner, and the missing `GeminiClient` / `EnvironmentManager`
classes that `inference.py` imports) are modelled as explicit environment
values supplied per call, so every definition is a pure, executable
function of the program input and the environment.
-/

/-! ## Python-faithful string helpers -/

/-- Python whitespace set used by `str.strip` and the `\s` regex class. -/
def pyWsChar (c : Char) : Bool :=
  c == ' ' || c == '\t' || c == '\n' || c == '\x0d' || c == '\x0b' || c == '\x0c'

/-- Python `str.strip()` on a character list: drop whitespace at both ends. -/
def pyStripL (l : List Char) : List Char :=
  ((l.dropWhile pyWsChar).reverse.dropWhile pyWsChar).reverse

/-- Python `str.strip()`. -/
def pyStrip (s : String) : String :=
  ⟨pyStripL s.data⟩

/-- Python truthiness of an optional string: `None` and `""` are falsy. -/
def pyFalsy (o : Option String) : Bool :=
  match o with
  | none => true
  | some s => s == ""

/-- Python `a or b` on optional strings (`None`/`""` are falsy). -/
def pyOr (a b : Option String) : Option String :=
  match a with
  | none => b
  | some s => if s == "" then b else some s

/-- Normalize a Python string-or-None so that falsy values become `none`
(the common `if not response: ...` guard). -/
def pyOpt (o : Option String) : Option String :=
  match o with
  | none => none
  | some s => if s == "" then none else some s

/-- Rendering of a Python `str`-or-`None` inside an f-string. -/
def pyShow (o : Option String) : String :=
  match o with
  | none => "None"
  | some s => s

/-- Boolean substring scan: does `pat` occur as a contiguous run in `l`?
(Python `pat in s`.) -/
def subScan (pat : List Char) : List Char → Bool
  | [] => pat.isEmpty
  | c :: cs => pat.isPrefixOf (c :: cs) || subScan pat cs

/-- Python `needle in hay` on strings. -/
def containsSubB (needle hay : String) : Bool :=
  subScan needle.data hay.data

/-- Python `s.startswith(pre)`. -/
def strStartsWith (s pre : String) : Bool :=
  pre.data.isPrefixOf s.data

/-- Python `s.endswith(suf)`. -/
def strEndsWith (s suf : String) : Bool :=
  suf.data.isSuffixOf s.data

/-- Python `s[n:]` (drop the first `n` characters). -/
def strDrop (s : String) (n : Nat) : String :=
  ⟨s.data.drop n⟩

/-- Python `s[:-n]` (drop the last `n` characters). -/
def strDropRight (s : String) (n : Nat) : String :=
  ⟨s.data.take (s.data.length - n)⟩

/-- Python `s.lower()`. -/
def pyLower (s : String) : String :=
  ⟨s.data.map Char.toLower⟩

/-- Python `s.replace(" ", "-")` (single-character replacement). -/
def replaceSpaceDash (s : String) : String :=
  ⟨s.data.map (fun c => if c == ' ' then '-' else c)⟩

/-! ## Oracle client: `OpenSeesSingleTurnAgent.call_gemini` (src/llm.py 260-294)

The HTTP transport is an external collaborator; one transport event models
what one `requests.post` call would observe. -/

/-- The content object of one Gemini candidate: the optional `parts` array
(each part reduced to its `text` field, the only field read) and the
optional direct `text` field.  A missing key is `none`. -/
structure GeminiContent where
  parts : Option (List String)
  text : Option String
deriving DecidableEq

/-- A parsed 200-response body: the optional `candidates` array, each
candidate reduced to its `content` object (the only field read). -/
structure GeminiBody where
  candidates : Option (List GeminiContent)
deriving DecidableEq

/-- What one HTTP attempt observes: a status/body response, or one of the
exception classes `call_gemini` catches. -/
inductive HttpEvent where
  | response (status : Nat) (body : GeminiBody)
  | timeoutErr
  | connectionErr
  | requestErr (msg : String)
  | otherErr (msg : String)
deriving DecidableEq

/-- `call_gemini` applied to one transport event: returns the first part
text of the first candidate on a 200 response (or the content `text`
field), and `None` on every non-200 status, malformed body, or caught
exception. -/
def callGeminiOnce (ev : HttpEvent) : Option String :=
  match ev with
  | .response status body =>
    if status == 200 then
      match body.candidates with
      | some (c :: _) =>
        (match c.parts with
         | some (p :: _) => some p
         | _ =>
           match c.text with
           | some t => some t
           | none => none)
      | _ => none
    else none
  | .timeoutErr => none
  | .connectionErr => none
  | .requestErr _ => none
  | .otherErr _ => none

/-- One call of `call_gemini` against a stream of transport events:
the source issues exactly one `requests.post`, so only the first event is
consulted and the attempt count is 1; there is no retry loop anywhere in
the function. Returns (result, number of HTTP attempts made). -/
def callGemini (transport : Nat → HttpEvent) : Option String × Nat :=
  (callGeminiOnce (transport 0), 1)

/-! ## Environment resolver: `get_python_executable` (src/llm.py 190-223)

`os.path.exists` answers and `_test_openseespy_compatibility` probe results
are environment inputs.  The returned list is the ghost log of candidates
actually probed (in order), used to observe re-probing. -/

/-- Path of the managed virtual environment's interpreter. -/
def venvPythonPath (isWindows : Bool) : String :=
  if isWindows then "./opensees_venv/Scripts/python.exe"
  else "./opensees_venv/bin/python"

/-- The fixed candidate list of priority 2 (src/llm.py 208-214). -/
def pythonCandidates : List String :=
  ["python", "python3", "/usr/bin/python3",
   "/opt/homebrew/bin/python3", "/usr/local/bin/python3"]

/-- Probe candidates in order; return the first compatible one, or the
ambient `python3` fallback when none probes true.  Also returns the list
of candidates probed. -/
def probeCandidates (probe : String → Bool) : List String → String × List String
  | [] => ("python3", [])
  | c :: cs =>
    if probe c then (c, [c])
    else
      let r := probeCandidates probe cs
      (r.1, c :: r.2)

/-- `get_python_executable`: try the virtual environment's interpreter
first (when the directory and the interpreter file exist), then the fixed
candidate list, then fall back to the ambient `python3`.  Second component
is the ghost log of probed candidates. -/
def getPythonExecutable (venvDirVisible venvPyVisible isWindows : Bool)
    (probe : String → Bool) : String × List String :=
  let vp := venvPythonPath isWindows
  if venvDirVisible && venvPyVisible then
    if probe vp then (vp, [vp])
    else
      let r := probeCandidates probe pythonCandidates
      (r.1, vp :: r.2)
  else
    probeCandidates probe pythonCandidates

/-- `InferenceEngine._get_python_executable` (src/pipeline/inference.py
60-64): memoizes the resolver result in `self.python_exe`.  `cached` is
the attribute before the call, `resolverResult` is what
`EnvironmentManager.get_python_executable()` would return if consulted.
Returns (returned identifier, attribute after the call). -/
def enginePythonExecutable (cached : Option String) (resolverResult : String) :
    String × Option String :=
  match cached with
  | some p => (p, some p)
  | none => (resolverResult, some resolverResult)

/-! ## Code extraction: `extract_python_code` (src/llm.py 296-327)

`re.findall` with the two patterns
`r'```python\s*\n([\s\S]*?)\n```'` and `r'```\s*\n([\s\S]*?)\n```'`
(both with `re.IGNORECASE`) is modelled exactly: a left-to-right scan
that, at each position, matches the literal fence, then a case-insensitive
tag, then `\s*\n` greedily (backtracking over the newline position), then
the lazy capture up to the first `\n```` close, and resumes after the
match. -/

/-- Case-insensitive character comparison of `re.IGNORECASE`. -/
def ciChar (a b : Char) : Bool :=
  a.toLower == b.toLower

/-- Case-insensitive literal prefix match. -/
def matchesCI : List Char → List Char → Bool
  | [], _ => true
  | _ :: _, [] => false
  | p :: ps, c :: cs => ciChar p c && matchesCI ps cs

/-- The literal opening fence. -/
def fenceTick : List Char := "```".data

/-- The literal closing `\n```` of both patterns. -/
def fenceClose : List Char := "\n```".data

/-- Index of the first occurrence of `pat` as a contiguous run, if any. -/
def findSubIdx (pat : List Char) : List Char → Option Nat
  | [] => if pat.isEmpty then some 0 else none
  | c :: cs =>
    if pat.isPrefixOf (c :: cs) then some 0
    else (findSubIdx pat cs).map (fun n => n + 1)

/-- The candidate newline positions for the greedy `\s*\n`, largest first:
positions `p` below the maximal whitespace run length `m` holding `'\n'`. -/
def newlinesBelow (v : List Char) (m : Nat) : List Nat :=
  ((List.range m).filter (fun p => v.get? p == some '\n')).reverse

/-- Try the newline candidates in greedy (descending) order; for the first
one followed somewhere by a `\n```` close, return the lazy (shortest)
capture and the remainder of the input after the whole match. -/
def tryNewlines (v : List Char) : List Nat → Option (List Char × List Char)
  | [] => none
  | p :: ps =>
    match findSubIdx fenceClose (v.drop (p + 1)) with
    | some q => some ((v.drop (p + 1)).take q, v.drop (p + 1 + q + 4))
    | none => tryNewlines v ps

/-- Try to match one fenced block (` ``` ` + case-insensitive `tag` +
`\s*\n` + lazy capture + `\n```` ) at the head of `u`. -/
def tryFenceMatch (tag : List Char) (u : List Char) : Option (List Char × List Char) :=
  if fenceTick.isPrefixOf u then
    let v0 := u.drop 3
    if matchesCI tag v0 then
      let v := v0.drop tag.length
      let m := (v.takeWhile pyWsChar).length
      tryNewlines v (newlinesBelow v m)
    else none
  else none

/-- The `re.findall` scan: fuel bounds the number of scan steps (each step
consumes at least one character, so `fuel = length` is exact). -/
def findAllFence (tag : List Char) : Nat → List Char → List (List Char)
  | 0, _ => []
  | _ + 1, [] => []
  | fuel + 1, c :: cs =>
    match tryFenceMatch tag (c :: cs) with
    | some (cap, rest) => cap :: findAllFence tag fuel rest
    | none => findAllFence tag fuel cs

/-- All captures of the fence pattern with the given tag (`"python".data`
for the first pattern, `[]` for the second), in order. -/
def reFindAll (tag : List Char) (s : List Char) : List (List Char) :=
  findAllFence tag s.length s

/-- Python `max(matches, key=len)` with initial element `first`: the first
longest element of `first :: rest`. -/
def maxByLen (rest : List (List Char)) (first : List Char) : List Char :=
  rest.foldl (fun best x => if best.length < x.length then x else best) first

/-- The fence-stripping fallback of lines 310-325: drop the first line,
drop a trailing ` ``` ` line when present, re-join and strip.  The two
source branches (` ```python ` prefix and bare ` ``` ` prefix) have
identical bodies. -/
def fenceFallback (t : List Char) : List Char :=
  let ls := (t.splitOn '\n').drop 1
  let ls :=
    match ls.getLast? with
    | some lastLine => if pyStripL lastLine = fenceTick then ls.dropLast else ls
    | none => ls
  pyStripL (List.intercalate ['\n'] ls)

/-- `extract_python_code`: the longest ` ```python ` capture when any
exists, else the longest bare-fence capture, else the fence-stripping
fallback on the stripped text, else the stripped text itself. -/
def extractPythonCode (text : String) : String :=
  match reFindAll "python".data text.data with
  | cap :: caps => ⟨pyStripL (maxByLen caps cap)⟩
  | [] =>
    match reFindAll [] text.data with
    | cap :: caps => ⟨pyStripL (maxByLen caps cap)⟩
    | [] =>
      let t := pyStripL text.data
      if "```python".data.isPrefixOf t then ⟨fenceFallback t⟩
      else if fenceTick.isPrefixOf t then ⟨fenceFallback t⟩
      else ⟨t⟩

/-! ## Gated workflow: `process_single_turn` (src/llm.py 329-401) and the
CLI entry `main` (src/llm.py 670-707). -/

/-- What one `subprocess.run` of the artifact observes in `_step_exec`:
a completed process with a return code and captured streams, a timeout,
a missing interpreter, or another exception (message pre-rendered). -/
inductive ExecEvent where
  | completed (returncode : Int) (stdout stderr : String)
  | timeout
  | notFound
  | exnOther (msg : String)
deriving DecidableEq

/-- The `execution_result` dict set by `_step_exec` on a completed run. -/
structure ExecResult where
  success : Bool
  stdout : String
  stderr : String
  returnCode : Int
  pythonUsed : String
deriving DecidableEq

/-- The stages of the workflow whose step function actually ran
(`Summarize` is the final aggregation block). -/
inductive Stage where
  | think
  | code
  | extract
  | write
  | exec
  | summarize
deriving DecidableEq

/-- The result dict of `process_single_turn`.  `tclContent` mirrors the
`tcl_content` key, which is only set when the Think step succeeds. -/
structure WorkflowResult where
  success : Bool
  tclFilePath : String
  userCommand : String
  thinkResponse : String
  codeResponse : String
  extractedCode : String
  tempFilePath : String
  executionResult : Option ExecResult
  errors : List String
  failedSteps : List String
  tclContent : Option String
deriving DecidableEq

/-- The external collaborators of one workflow run: the TCL file read,
the two oracle responses, the temp-file write, the artifact execution, and
the wall-clock timestamp used in the temp-file name. -/
structure AgentEnv where
  readTcl : Except String String
  thinkResp : Option String
  codeResp : Option String
  writeOk : Bool
  writeErr : String
  execEvent : ExecEvent
  timestamp : Nat

/-- `process_single_turn`: the six-step workflow.  Returns the result dict
(or the uncaught `KeyError` raised in step 2's prompt construction when
Think failed, since `result["tcl_content"]` was never set), together with
the ghost list of stages whose step body actually ran. -/
def processSingleTurn (tclFilePath userCommand exe : String) (env : AgentEnv) :
    Except String WorkflowResult × List Stage :=
  let base : WorkflowResult :=
    { success := false, tclFilePath := tclFilePath, userCommand := userCommand,
      thinkResponse := "", codeResponse := "", extractedCode := "",
      tempFilePath := "", executionResult := none, errors := [],
      failedSteps := [], tclContent := none }
  -- step 1: Think (read the TCL file, then ask the oracle for a plan)
  let r1 :=
    match env.readTcl with
    | .error msg =>
      { base with errors := base.errors ++ ["步骤1失败 - " ++ msg],
                  failedSteps := base.failedSteps ++ ["think"] }
    | .ok content =>
      match pyOpt env.thinkResp with
      | none =>
        { base with errors := base.errors ++ ["步骤1失败 - Gemini API调用失败"],
                    failedSteps := base.failedSteps ++ ["think"] }
      | some resp =>
        { base with thinkResponse := resp, tclContent := some content }
  -- step 2: Code — always entered; building its prompt reads
  -- result["tcl_content"], which raises KeyError when Think failed
  match r1.tclContent with
  | none => (Except.error "KeyError: tcl_content", [Stage.think, Stage.code])
  | some _ =>
    let r2 :=
      match pyOpt env.codeResp with
      | none =>
        { r1 with errors := r1.errors ++ ["步骤2失败 - Gemini API调用失败"],
                  failedSteps := r1.failedSteps ++ ["code"] }
      | some resp => { r1 with codeResponse := resp }
    -- step 3: Extract, gated on the Code step
    let s3 :=
      if r2.failedSteps.contains "code" then
        ({ r2 with failedSteps := r2.failedSteps ++ ["extract_code"] }, ([] : List Stage))
      else
        let code := extractPythonCode r2.codeResponse
        if pyStrip code == "" then
          ({ r2 with errors := r2.errors ++ ["步骤3失败 - 未找到有效Python代码"],
                     failedSteps := r2.failedSteps ++ ["extract_code"] }, [Stage.extract])
        else ({ r2 with extractedCode := code }, [Stage.extract])
    let r3 := s3.1
    -- step 4: Write, gated on the Extract step
    let s4 :=
      if r3.failedSteps.contains "extract_code" then
        ({ r3 with failedSteps := r3.failedSteps ++ ["write"] }, ([] : List Stage))
      else
        if env.writeOk then
          ({ r3 with tempFilePath :=
               "./temp_opensees/opensees_" ++ toString env.timestamp ++ ".py" },
           [Stage.write])
        else
          ({ r3 with errors := r3.errors ++ ["步骤4失败 - " ++ env.writeErr],
                     failedSteps := r3.failedSteps ++ ["write"] }, [Stage.write])
    let r4 := s4.1
    -- step 5: Exec, gated on the Write step
    let s5 :=
      if r4.failedSteps.contains "write" then
        ({ r4 with failedSteps := r4.failedSteps ++ ["exec"] }, ([] : List Stage))
      else
        match env.execEvent with
        | .completed rc out err =>
          let er : ExecResult :=
            { success := rc == 0, stdout := out, stderr := err,
              returnCode := rc, pythonUsed := exe }
          let r5 := { r4 with executionResult := some er }
          if rc == 0 then (r5, [Stage.exec])
          else
            let msg := "步骤5失败 - 代码执行错误(返回码:" ++ toString rc ++ "): " ++
              (if pyStrip err == "" then "No stderr output" else pyStrip err)
            ({ r5 with errors := r5.errors ++ [msg],
                       failedSteps := r5.failedSteps ++ ["exec"] }, [Stage.exec])
        | .timeout =>
          ({ r4 with errors := r4.errors ++ ["步骤5失败 - 代码执行超时(120秒)"],
                     failedSteps := r4.failedSteps ++ ["exec"] }, [Stage.exec])
        | .notFound =>
          ({ r4 with errors := r4.errors ++ ["步骤5失败 - " ++ exe ++ "命令未找到"],
                     failedSteps := r4.failedSteps ++ ["exec"] }, [Stage.exec])
        | .exnOther msg =>
          ({ r4 with errors := r4.errors ++ ["步骤5失败 - " ++ msg],
                     failedSteps := r4.failedSteps ++ ["exec"] }, [Stage.exec])
    let r5 := s5.1
    -- step 6: Return Result (Summarize) — aggregate the success flag
    let critical := r5.failedSteps.filter
      (fun s => s == "think" || s == "code" || s == "extract_code" || s == "write")
    let res := { r5 with success :=
      critical.isEmpty && !(r5.failedSteps.contains "exec") }
    (Except.ok res,
     [Stage.think, Stage.code] ++ s3.2 ++ s4.2 ++ s5.2 ++ [Stage.summarize])

/-- Python `result.get('execution_result', {}).get('success')` truthiness. -/
def execResSuccess (res : WorkflowResult) : Bool :=
  match res.executionResult with
  | some er => er.success
  | none => false

/-- The CLI entry `main` (src/llm.py 670-707): exit 1 on missing argv or a
failed agent construction; exit 1 when `process_single_turn` raises (the
generic `except Exception` handler); otherwise exit 0 iff the aggregate
`success` flag or `execution_result.success` is truthy. -/
def mainExitCode (argvCount : Nat) (initOk : Bool)
    (tclFilePath userCommand exe : String) (env : AgentEnv) : Nat :=
  if argvCount < 3 then 1
  else if !initOk then 1
  else
    match processSingleTurn tclFilePath userCommand exe env with
    | (Except.error _, _) => 1
    | (Except.ok res, _) => if res.success || execResSuccess res then 0 else 1

/-! ## Repair loop: `InferenceEngine` (src/pipeline/inference.py)

`GeminiClient.call` and `EnvironmentManager` are imported by
`inference.py` but their classes are not part of the sources; each oracle
call is therefore an environment-supplied optional response, and each
subprocess run an environment-supplied event. -/

/-- `STRUCTURE_MAP` (src/pipeline/inference.py 27-34). -/
def STRUCTURE_MAP : List (String × String) :=
  [("框架", "frame"), ("框架结构", "frame"),
   ("剪力墙", "wall"), ("剪力墙结构", "wall"),
   ("框架剪力墙", "frame-wall"), ("框架剪力墙结构", "frame-wall")]

/-- `INTENTION_MAP` (src/pipeline/inference.py 20-25). -/
def INTENTION_MAP : List (String × String) :=
  [("静力分析", "statics"), ("模态分析", "modal"),
   ("地震谱分析", "spectrum"), ("时程分析", "timehistory")]

/-- Dictionary lookup: `m.get(k)`. -/
def mapLookup (m : List (String × String)) (k : String) : Option String :=
  (m.find? (fun p => p.1 == k)).map (fun p => p.2)

/-- `_translate_to_english` (src/pipeline/inference.py 43-52). -/
def translateToEnglish (structType intention : String) : String × String :=
  let sk0 := pyStrip structType
  let sk :=
    if strEndsWith sk0 "结构" && (mapLookup STRUCTURE_MAP sk0).isNone
    then strDropRight sk0 2 else sk0
  let se := (mapLookup STRUCTURE_MAP sk).getD (replaceSpaceDash (pyLower sk))
  let ik := pyStrip intention
  let ie := (mapLookup INTENTION_MAP ik).getD (replaceSpaceDash (pyLower ik))
  (se, ie)

/-- The file path built by `_save_code` (src/pipeline/inference.py
133-152), with POSIX path joining. -/
def savePath (outputDir structType intention : String)
    (runIndex iteration : Nat) : String :=
  let t := translateToEnglish structType intention
  let base := t.1 ++ "-" ++ t.2 ++ "-" ++ toString runIndex
  outputDir ++ "/" ++ base ++ "/" ++ base ++ "-" ++ toString iteration ++ ".py"

/-- What one `subprocess.run` of the artifact observes in `_run_code`. -/
inductive RunEvent where
  | completed (returncode : Int) (stdout stderr : String)
  | timeout
  | exnOther (msg : String)
deriving DecidableEq

/-- `_run_code` (src/pipeline/inference.py 154-181): success iff the
return code is 0; empty captured streams become `None`; a timeout or an
exception is a failure with the fixed message in stderr position. -/
def runCode (ev : RunEvent) : Bool × Option String × Option String :=
  match ev with
  | .completed rc out err =>
    (rc == 0,
     (if out == "" then none else some out),
     (if err == "" then none else some err))
  | .timeout => (false, none, some "程序运行超时（300秒）")
  | .exnOther msg => (false, none, some ("运行异常: " ++ msg))

/-- `_analyze_result` (src/pipeline/inference.py 183-227): `success` and
the captured streams come from `_run_code`; `resp` is the oracle's answer
to the analysis prompt (the prompt text is built from `stdout`/`stderr`
but only the answer affects the verdict).  A falsy answer falls back to
`(success, stderr)`; otherwise the verdict is true when the answer
contains "成功" **or** the exit status was already success. -/
def analyzeResult (success : Bool) (stdout stderr : Option String)
    (resp : Option String) : Bool × Option String :=
  match resp with
  | none => (success, stderr)
  | some s =>
    if s == "" then (success, stderr)
    else
      let a := pyStrip s
      if containsSubB "成功" a || success then (true, none)
      else (false, pyOr (some a) stderr)

/-- The first-iteration synthesis prompt of `_generate_code`
(src/pipeline/inference.py 82-94). -/
def firstGenPrompt (task : String) : String :=
  "你是一个结构分析专家，擅长使用OpenSeesPy进行结构分析。\n\n用户需求：" ++ task ++
  "\n\n请根据用户需求，使用OpenSeesPy编写一个完整的结构分析程序。要求：\n" ++
  "1. 使用openseespy.opensees模块\n2. 所有注释使用中文\n3. 代码完整，可以直接运行\n" ++
  "4. 包含必要的模型定义、分析步骤和结果输出\n5. 确保代码语法正确\n" ++
  "6. 不要包含绘图、可视化、matplotlib等绘图相关的代码，只输出数值计算结果\n\n" ++
  "只输出Python代码，不要包含任何解释或markdown格式："

/-- The repair-iteration synthesis prompt of `_generate_code`
(src/pipeline/inference.py 97-114). -/
def repairGenPrompt (task previousCode previousErrorText : String) : String :=
  "你是一个结构分析专家，需要修复OpenSeesPy程序中的错误。\n\n用户需求：" ++ task ++
  "\n\n上一次的代码：\n```python\n" ++ previousCode ++
  "\n```\n\n运行错误信息：\n" ++ previousErrorText ++
  "\n\n请根据错误信息修改代码，要求：\n1. 修复所有错误\n2. 保持代码完整可运行\n" ++
  "3. 所有注释使用中文\n" ++
  "4. 不要包含绘图、可视化、matplotlib等绘图相关的代码，只输出数值计算结果\n" ++
  "5. 只输出修改后的完整Python代码，不要包含任何解释或markdown格式："

/-- The prompt selection of `_generate_code` (src/pipeline/inference.py
80-114): the first form on iteration 1 or when `previous_code` is falsy;
otherwise the repair form with the previous code and the f-string
rendering of `previous_error`. -/
def generateCodePrompt (task : String) (iteration : Nat)
    (previousCode previousError : Option String) : String :=
  if iteration == 1 || pyFalsy previousCode then firstGenPrompt task
  else repairGenPrompt task (previousCode.getD "") (pyShow previousError)

/-- The markdown-fence cleanup of `_generate_code`
(src/pipeline/inference.py 121-129). -/
def cleanGeneratedCode (resp : String) : String :=
  let c0 := pyStrip resp
  let c1 := if strStartsWith c0 "```python" then strDrop c0 9 else c0
  let c2 := if strStartsWith c1 "```" then strDrop c1 3 else c1
  let c3 := if strEndsWith c2 "```" then strDropRight c2 3 else c2
  pyStrip c3

/-- One iteration record of `run` (src/pipeline/inference.py 269-276 and
295-300): a normal record carries the saved file path, the verdict, the
captured streams and the classification reason; an exception record
carries only the exception text. -/
inductive IterationInfo where
  | normal (iteration : Nat) (filepath : String) (success : Bool)
      (stdout stderr errorInfo : Option String)
  | exn (iteration : Nat) (error : String)
deriving DecidableEq

/-- The verdict stored in a record (`success` key; `false` on the
exception path). -/
def IterationInfo.success : IterationInfo → Bool
  | .normal _ _ s _ _ _ => s
  | .exn _ _ => false

/-- The environment of one loop iteration: the oracle's response to the
synthesis prompt, whether `_save_code` succeeds (with the exception text
otherwise), the subprocess event, and the oracle's response to the
analysis prompt. -/
structure IterEnv where
  genResp : Option String
  saveOk : Bool
  saveErr : String
  runEvent : RunEvent
  anaResp : Option String

/-- The outcome of one iteration body (the `try` block of
src/pipeline/inference.py 252-309), excluding the prompt (which is a
function of the loop state): a success record (break), a normal failure
record together with the `previous_code`/`previous_error` updates of
lines 289-290, or an exception record with the exception text (line 303). -/
inductive StepKind where
  | success (record : IterationInfo)
  | failNormal (record : IterationInfo) (newCode newErr : Option String)
  | failExn (record : IterationInfo) (errText : String)
deriving DecidableEq

/-- One iteration body: generation (a falsy oracle response raises
`RuntimeError("生成代码失败")`), fence cleanup, save (may raise), run,
and classification. -/
def iterStepKind (outputDir structType intention : String)
    (runIndex iteration : Nat) (env : IterEnv) : StepKind :=
  match pyOpt env.genResp with
  | none => .failExn (.exn iteration "生成代码失败") "生成代码失败"
  | some resp =>
    let code := cleanGeneratedCode resp
    if env.saveOk then
      let filepath := savePath outputDir structType intention runIndex iteration
      let r := runCode env.runEvent
      let v := analyzeResult r.1 r.2.1 r.2.2 env.anaResp
      let record := IterationInfo.normal iteration filepath v.1 r.2.1 r.2.2 v.2
      if v.1 then .success record
      else .failNormal record (some code) (pyOr v.2 r.2.2)
    else .failExn (.exn iteration env.saveErr) env.saveErr

/-- The iteration loop of `run` (src/pipeline/inference.py 249-309),
instrumented with the synthesis prompt used by each iteration.  `fuel`
counts the iterations still allowed including the current one; the
`previous_code`/`previous_error` updates of a normal failure are applied
only when further iterations remain (line 287), while an exception always
updates `previous_error` (line 303). -/
def loopAux (task outputDir structType intention : String) (runIndex : Nat)
    (envs : Nat → IterEnv) :
    Nat → Nat → Option String → Option String → List (String × IterationInfo)
  | _, 0, _, _ => []
  | iteration, fuel + 1, previousCode, previousError =>
    let p := generateCodePrompt task iteration previousCode previousError
    match iterStepKind outputDir structType intention runIndex iteration (envs iteration) with
    | .success record => [(p, record)]
    | .failNormal record newCode newErr =>
      (p, record) ::
        (if 0 < fuel then
          loopAux task outputDir structType intention runIndex envs
            (iteration + 1) fuel newCode newErr
         else
          loopAux task outputDir structType intention runIndex envs
            (iteration + 1) fuel previousCode previousError)
    | .failExn record errText =>
      (p, record) ::
        loopAux task outputDir structType intention runIndex envs
          (iteration + 1) fuel previousCode (some errText)

/-- The result dict of `run` (src/pipeline/inference.py 311-318). -/
structure RunSummary where
  structType : String
  intention : String
  prompt : String
  iterations : List IterationInfo
  finalSuccess : Bool
  runIndex : Nat

/-- `run`: iterate from iteration 1 with no prior context, for at most
`maxIterations` iterations; `final_success` is the verdict of the last
record (false when there is none). -/
def inferenceRun (task outputDir structType intention : String)
    (runIndex maxIterations : Nat) (envs : Nat → IterEnv) : RunSummary :=
  let trace := loopAux task outputDir structType intention runIndex envs
    1 maxIterations none none
  let its := trace.map (fun pr => pr.2)
  { structType := structType, intention := intention, prompt := task,
    iterations := its, runIndex := runIndex,
    finalSuccess :=
      match its.getLast? with
      | some r => r.success
      | none => false }

/-! ## Concrete environments used by witnesses and counterexamples -/

/-- A workflow environment whose TCL read fails (file missing); all other
collaborators are benign. -/
def envThinkFail : AgentEnv :=
  { readTcl := Except.error "文件不存在: missing.tcl",
    thinkResp := some "计划", codeResp := some "```python\nx = 1\n```",
    writeOk := true, writeErr := "", execEvent := ExecEvent.completed 0 "" "",
    timestamp := 0 }

/-- A repair-loop iteration environment where everything succeeds and the
oracle confirms the run ("成功"). -/
def envRepairOk : IterEnv :=
  { genResp := some "print(1)", saveOk := true, saveErr := "",
    runEvent := RunEvent.completed 0 "ok" "", anaResp := some "成功" }

/-- A repair-loop iteration environment where generation succeeds (code
"ZQZQ") but saving the artifact raises an IO error. -/
def envRepairSaveFail : IterEnv :=
  { genResp := some "ZQZQ", saveOk := false, saveErr := "磁盘错误",
    runEvent := RunEvent.completed 0 "" "", anaResp := none }

/-- A repair-loop iteration environment with a normal failure: generation
yields code "ZQ", the run exits 1 with stderr "boom", and the oracle
classifies the failure as "失败：原因X". -/
def envRepairFail : IterEnv :=
  { genResp := some "ZQ", saveOk := true, saveErr := "",
    runEvent := RunEvent.completed 1 "" "boom", anaResp := some "失败：原因X" }

/-! ## Helper lemmas -/

theorem subScan_iff (pat : List Char) (l : List Char) :
    subScan pat l = true ↔ pat <:+: l := by
  induction l with
  | nil => simp [subScan, List.isEmpty_iff]
  | cons c cs ih =>
    simp [subScan, List.infix_cons_iff, ih]

theorem containsSubB_intro (needle hay : String)
    (h : needle.data <:+: hay.data) : containsSubB needle hay = true :=
  (subScan_iff needle.data hay.data).mpr h

theorem infix_append_left {l m : List Char} (n : List Char)
    (h : l <:+: m) : l <:+: n ++ m := by
  obtain ⟨s, t, rfl⟩ := h
  exact ⟨n ++ s, t, by simp⟩

theorem pyStripL_within (l : List Char) : pyStripL l <:+: l := by
  have h1 : l.dropWhile pyWsChar <:+ l := List.dropWhile_suffix pyWsChar
  have h2 : (l.dropWhile pyWsChar).reverse.dropWhile pyWsChar <:+
      (l.dropWhile pyWsChar).reverse := List.dropWhile_suffix pyWsChar
  have h3 : pyStripL l <+: l.dropWhile pyWsChar := by
    have := List.reverse_prefix.mpr h2
    simpa [pyStripL] using this
  exact (h3.isInfix).trans h1.isInfix

theorem dropWhile_dropWhile (p : Char → Bool) (l : List Char) :
    (l.dropWhile p).dropWhile p = l.dropWhile p := by
  induction l with
  | nil => simp
  | cons c cs ih =>
    by_cases h : p c
    · simpa [List.dropWhile_cons, h] using ih
    · simp [List.dropWhile_cons, h]

theorem dropWhile_eq_self_of_prefix {p : Char → Bool} {B A : List Char}
    (hpre : B <+: A) (hA : A.dropWhile p = A) : B.dropWhile p = B := by
  cases hB : B with
  | nil => simp
  | cons b bs =>
    obtain ⟨t, ht⟩ := hpre
    have hbA : A = b :: (bs ++ t) := by rw [← ht, hB]; simp
    have hpb : p b = false := by
      by_contra hc
      have hpb2 : p b = true := by
        cases hx : p b
        · exact absurd hx hc
        · rfl
      have := hA
      rw [hbA, List.dropWhile_cons_of_pos hpb2] at this
      have hlen := congrArg List.length this
      simp at hlen
      have := (List.dropWhile_suffix (l := bs ++ t) p).length_le
      simp [List.length_append] at this hlen
      omega
    simp [List.dropWhile_cons_of_neg, hpb]

theorem pyStripL_idem (l : List Char) : pyStripL (pyStripL l) = pyStripL l := by
  have hAdw : (l.dropWhile pyWsChar).dropWhile pyWsChar = l.dropWhile pyWsChar :=
    dropWhile_dropWhile pyWsChar l
  have hBpre : pyStripL l <+: l.dropWhile pyWsChar := by
    have h2 : (l.dropWhile pyWsChar).reverse.dropWhile pyWsChar <:+
        (l.dropWhile pyWsChar).reverse := List.dropWhile_suffix pyWsChar
    have := List.reverse_prefix.mpr h2
    simpa [pyStripL] using this
  have hBdw : (pyStripL l).dropWhile pyWsChar = pyStripL l :=
    dropWhile_eq_self_of_prefix hBpre hAdw
  have hCdw : (pyStripL l).reverse.dropWhile pyWsChar = (pyStripL l).reverse := by
    have : (pyStripL l).reverse =
        (l.dropWhile pyWsChar).reverse.dropWhile pyWsChar := by
      simp [pyStripL]
    rw [this]
    exact dropWhile_dropWhile pyWsChar (l.dropWhile pyWsChar).reverse
  show ((((pyStripL l).dropWhile pyWsChar).reverse.dropWhile pyWsChar).reverse) = pyStripL l
  rw [hBdw, hCdw, List.reverse_reverse]

theorem tryFenceMatch_eq_none_of_no_fence {tag u : List Char}
    (h : ¬ fenceTick <:+: u) : tryFenceMatch tag u = none := by
  have hp : fenceTick.isPrefixOf u = false := by
    cases hx : fenceTick.isPrefixOf u
    · rfl
    · exact absurd (List.isPrefixOf_iff_prefix.mp hx).isInfix h
  simp [tryFenceMatch, hp]

theorem findAllFence_eq_nil {tag : List Char} :
    ∀ (fuel : Nat) (s : List Char), ¬ fenceTick <:+: s →
      findAllFence tag fuel s = [] := by
  intro fuel
  induction fuel with
  | zero => intro s _; simp [findAllFence]
  | succ n ih =>
    intro s h
    cases s with
    | nil => simp [findAllFence]
    | cons c cs =>
      rw [findAllFence, tryFenceMatch_eq_none_of_no_fence h]
      exact ih cs (fun hcs => h (List.infix_cons hcs))

theorem maxByLen_mem : ∀ (rest : List (List Char)) (first : List Char),
    maxByLen rest first = first ∨ maxByLen rest first ∈ rest := by
  intro rest
  induction rest with
  | nil => intro first; left; rfl
  | cons x xs ih =>
    intro first
    have hstep : maxByLen (x :: xs) first =
        maxByLen xs (if first.length < x.length then x else first) := by
      simp [maxByLen]
    rw [hstep]
    rcases ih (if first.length < x.length then x else first) with h | h
    · by_cases hc : first.length < x.length
      · right; rw [h]; simp [hc]
      · left; rw [h]; simp [hc]
    · right; exact List.mem_cons_of_mem x h

theorem maxByLen_le : ∀ (rest : List (List Char)) (first : List Char),
    first.length ≤ (maxByLen rest first).length ∧
    ∀ d ∈ rest, d.length ≤ (maxByLen rest first).length := by
  intro rest
  induction rest with
  | nil => intro first; exact ⟨Nat.le_refl _, by simp⟩
  | cons x xs ih =>
    intro first
    have hstep : maxByLen (x :: xs) first =
        maxByLen xs (if first.length < x.length then x else first) := by
      simp [maxByLen]
    obtain ⟨h1, h2⟩ := ih (if first.length < x.length then x else first)
    have hinit1 : first.length ≤
        (if first.length < x.length then x else first).length := by
      by_cases hc : first.length < x.length <;> simp [hc] <;> omega
    have hinit2 : x.length ≤
        (if first.length < x.length then x else first).length := by
      by_cases hc : first.length < x.length <;> simp [hc] <;> omega
    refine ⟨?_, ?_⟩
    · rw [hstep]; exact Nat.le_trans hinit1 h1
    · intro d hd
      rw [hstep]
      rcases List.mem_cons.mp hd with rfl | hdx
      · exact Nat.le_trans hinit2 h1
      · exact h2 d hdx

theorem iterStepKind_failNormal_success (od st it : String) (ri n : Nat)
    (env : IterEnv) (record : IterationInfo) (nc ne : Option String)
    (h : iterStepKind od st it ri n env = StepKind.failNormal record nc ne) :
    record.success = false := by
  unfold iterStepKind at h
  cases hg : pyOpt env.genResp with
  | none => simp [hg] at h
  | some resp =>
    rw [hg] at h
    cases hs : env.saveOk
    · simp [hs] at h
    · simp only [hs, if_true] at h
      split at h
      · simp at h
      · rename_i hv
        have hrec := (StepKind.failNormal.inj h).1
        rw [← hrec]
        simpa [IterationInfo.success] using hv

theorem iterStepKind_failExn_success (od st it : String) (ri n : Nat)
    (env : IterEnv) (record : IterationInfo) (err : String)
    (h : iterStepKind od st it ri n env = StepKind.failExn record err) :
    record.success = false := by
  unfold iterStepKind at h
  cases hg : pyOpt env.genResp with
  | none =>
    rw [hg] at h
    have hrec := (StepKind.failExn.inj h).1
    rw [← hrec]
    rfl
  | some resp =>
    rw [hg] at h
    cases hs : env.saveOk
    · simp only [hs] at h
      simp only [Bool.false_eq_true, if_false] at h
      have hrec := (StepKind.failExn.inj h).1
      rw [← hrec]
      rfl
    · simp only [hs, if_true] at h
      split at h <;> simp at h

theorem loopAux_length_le (task od st it : String) (ri : Nat)
    (envs : Nat → IterEnv) :
    ∀ (fuel iteration : Nat) (pc pe : Option String),
      (loopAux task od st it ri envs iteration fuel pc pe).length ≤ fuel := by
  intro fuel
  induction fuel with
  | zero => intro iteration pc pe; simp [loopAux]
  | succ n ih =>
    intro iteration pc pe
    rw [loopAux]
    cases h : iterStepKind od st it ri iteration (envs iteration) with
    | success record => simp
    | failNormal record nc ne =>
      by_cases hf : 0 < n
      · simpa [hf] using ih (iteration + 1) nc ne
      · simpa [hf] using ih (iteration + 1) pc pe
    | failExn record err =>
      simpa using ih (iteration + 1) pc (some err)

theorem loopAux_success_only_last (task od st it : String) (ri : Nat)
    (envs : Nat → IterEnv) :
    ∀ (fuel iteration : Nat) (pc pe : Option String) (i : Nat)
      (pr : String × IterationInfo),
      (loopAux task od st it ri envs iteration fuel pc pe)[i]? = some pr →
      pr.2.success = true →
      i + 1 = (loopAux task od st it ri envs iteration fuel pc pe).length := by
  intro fuel
  induction fuel with
  | zero => intro iteration pc pe i pr hget _; simp [loopAux] at hget
  | succ n ih =>
    intro iteration pc pe i pr hget hsucc
    rw [loopAux] at hget ⊢
    cases h : iterStepKind od st it ri iteration (envs iteration) with
    | success record =>
      rw [h] at hget
      cases i with
      | zero => simp
      | succ j => simp at hget
    | failNormal record nc ne =>
      rw [h] at hget
      cases i with
      | zero =>
        simp only [List.getElem?_cons_zero, Option.some.injEq] at hget
        rw [← hget] at hsucc
        rw [iterStepKind_failNormal_success od st it ri iteration
          (envs iteration) record nc ne h] at hsucc
        simp at hsucc
      | succ j =>
        simp only [List.getElem?_cons_succ] at hget
        simp only [h, List.length_cons, Nat.succ_eq_add_one]
        by_cases hf : 0 < n
        · rw [if_pos hf] at hget ⊢
          have := ih (iteration + 1) nc ne j pr hget hsucc
          omega
        · rw [if_neg hf] at hget ⊢
          have := ih (iteration + 1) pc pe j pr hget hsucc
          omega
    | failExn record err =>
      rw [h] at hget
      cases i with
      | zero =>
        simp only [List.getElem?_cons_zero, Option.some.injEq] at hget
        rw [← hget] at hsucc
        rw [iterStepKind_failExn_success od st it ri iteration
          (envs iteration) record err h] at hsucc
        simp at hsucc
      | succ j =>
        simp only [List.getElem?_cons_succ] at hget
        simp only [h, List.length_cons, Nat.succ_eq_add_one]
        have := ih (iteration + 1) pc (some err) j pr hget hsucc
        omega

theorem loopAux_head_prompt (task od st it : String) (ri : Nat)
    (envs : Nat → IterEnv) (fuel iteration : Nat) (pc pe : Option String) :
    ∃ record, (loopAux task od st it ri envs iteration (fuel + 1) pc pe)[0]? =
      some (generateCodePrompt task iteration pc pe, record) := by
  rw [loopAux]
  cases h : iterStepKind od st it ri iteration (envs iteration) with
  | success record => exact ⟨record, by simp⟩
  | failNormal record nc ne => exact ⟨record, by simp⟩
  | failExn record err => exact ⟨record, by simp⟩

theorem infix_append_leftmost {c rest : List Char} : c <:+: c ++ rest :=
  (List.prefix_append c rest).isInfix

/-! ## Claim theorems -/

/-- Claim C1 (code evidence): in `_analyze_result` an `Ok` exit status
(`success = true`) always yields the verdict `is_success = true` whatever
the confirmation oracle answers — the `or success` disjunct at
src/pipeline/inference.py 224 makes a negative answer irrelevant.  The
second conjunct exhibits a concretely negative answer (it does not contain
the affirmation token "成功"), so an Ok exit with a negative oracle answer
still yields `is_success = true`, contradicting the claim and the code's
own comment that the oracle must confirm the success. -/
theorem analyze_result_ok_ignores_oracle :
    (∀ (stdout stderr resp : Option String),
      (analyzeResult true stdout stderr resp).1 = true) ∧
    containsSubB "成功" "失败：未进行任何分析" = false := by
  constructor
  · intro stdout stderr resp
    cases resp with
    | none => rfl
    | some s =>
      by_cases hs : (s == "") = true
      · simp [analyzeResult, hs]
      · simp [analyzeResult, hs]
  · decide

/-- Claim C4 counterexample: with a transport that always raises a
connection error, `call_gemini` makes exactly one HTTP attempt — not the 3
attempts the claim requires — and returns a bare `None` instead of a
structured transient failure after backoff. -/
theorem call_gemini_no_retry_counterexample :
    callGemini (fun _ => HttpEvent.connectionErr) = (none, 1) ∧
    (callGemini (fun _ => HttpEvent.connectionErr)).2 ≠ 3 := by
  exact ⟨rfl, by decide⟩

/-- Claim C4 (amended): `call_gemini` performs exactly one HTTP attempt
per call — there is no retry loop and no backoff; a connection or timeout
error on that single attempt yields `None` immediately, and so does any
non-200 response. -/
theorem call_gemini_single_attempt (transport : Nat → HttpEvent) :
    (callGemini transport).2 = 1 ∧
    ((transport 0 = HttpEvent.connectionErr ∨ transport 0 = HttpEvent.timeoutErr) →
      (callGemini transport).1 = none) ∧
    (∀ (status : Nat) (body : GeminiBody), status ≠ 200 →
      transport 0 = HttpEvent.response status body →
      (callGemini transport).1 = none) := by
  refine ⟨rfl, ?_, ?_⟩
  · rintro (h | h) <;> simp [callGemini, callGeminiOnce, h]
  · intro status body hst h
    have hb : (status == 200) = false := by
      cases hx : status == 200
      · rfl
      · exact absurd (by simpa using hx) hst
    simp [callGemini, callGeminiOnce, h, hb]

/-- Witness for `call_gemini_single_attempt` at a concrete transport that
always times out. -/
theorem call_gemini_single_attempt_witness :
    (callGemini (fun _ => HttpEvent.timeoutErr)).2 = 1 ∧
    (callGemini (fun _ => HttpEvent.timeoutErr)).1 = none := by
  obtain ⟨h1, h2, _⟩ := call_gemini_single_attempt (fun _ => HttpEvent.timeoutErr)
  exact ⟨h1, h2 (Or.inr rfl)⟩

/-- Claim C8 counterexample: the agent resolver of src/llm.py is *not*
memoized.  Within one session, a first call while the `python` candidate
probes compatible returns "python"; a second call after compatibility
changed (all probes now fail) re-runs the probes — the ghost log shows all
five candidates probed again — and returns the different identifier
"python3". -/
theorem resolver_rerun_counterexample :
    (getPythonExecutable false false false (fun s => s == "python")).1 = "python" ∧
    (getPythonExecutable false false false (fun _ => false)).1 = "python3" ∧
    (getPythonExecutable false false false (fun _ => false)).2 =
      ["python", "python3", "/usr/bin/python3", "/opt/homebrew/bin/python3",
       "/usr/local/bin/python3"] ∧
    ("python" : String) ≠ "python3" := by
  exact ⟨rfl, rfl, rfl, by decide⟩

/-- Claim C8 (amended): the pipeline engine's resolver
(`InferenceEngine._get_python_executable`) is memoized — after a first
call resolved `r1`, a second call returns `r1` again whatever the
underlying resolver would now answer (`r2` is ignored), and the cache is
unchanged. -/
theorem engine_resolver_memoized (r1 r2 : String) :
    (enginePythonExecutable (enginePythonExecutable none r1).2 r2).1 = r1 ∧
    (enginePythonExecutable (enginePythonExecutable none r1).2 r2).2 = some r1 :=
  ⟨rfl, rfl⟩

/-- Claim C9: environment resolution is total — when every candidate
(the virtual environment's interpreter and all listed interpreter paths)
probes as incompatible, `get_python_executable` still returns the ambient
default runtime "python3" instead of raising. -/
theorem resolver_total_fallback (venvDirVisible venvPyVisible isWindows : Bool)
    (probe : String → Bool) (h : ∀ c, probe c = false) :
    (getPythonExecutable venvDirVisible venvPyVisible isWindows probe).1 =
      "python3" := by
  have hcand : (probeCandidates probe pythonCandidates).1 = "python3" := by
    simp [pythonCandidates, probeCandidates, h]
  unfold getPythonExecutable
  by_cases hv : (venvDirVisible && venvPyVisible) = true
  · simp [hv, h, hcand]
  · simp [hv, hcand]

/-- Witness for `resolver_total_fallback` with every probe failing. -/
theorem resolver_total_fallback_witness :
    (getPythonExecutable true true false (fun _ => false)).1 = "python3" :=
  resolver_total_fallback true true false (fun _ => false) (fun _ => rfl)

/-- Claim C2: for every iteration budget N ≥ 1 and every environment, one
call of `run` produces at most N iteration records, and any record whose
verdict `is_success` is true is the last record — the loop breaks at the
first success, so no further iteration (generation, execution or
classification) happens after it. -/
theorem repair_loop_stops_at_first_success
    (task outputDir structType intention : String)
    (runIndex maxIterations : Nat) (envs : Nat → IterEnv)
    (hN : 1 ≤ maxIterations) :
    (inferenceRun task outputDir structType intention runIndex maxIterations
        envs).iterations.length ≤ maxIterations ∧
    ∀ (i : Nat) (r : IterationInfo),
      (inferenceRun task outputDir structType intention runIndex maxIterations
          envs).iterations[i]? = some r →
      r.success = true →
      i + 1 = (inferenceRun task outputDir structType intention runIndex
          maxIterations envs).iterations.length := by
  constructor
  · have := loopAux_length_le task outputDir structType intention runIndex envs
      maxIterations 1 none none
    simpa [inferenceRun] using this
  · intro i r hget hsucc
    have hmap : (inferenceRun task outputDir structType intention runIndex
        maxIterations envs).iterations =
        (loopAux task outputDir structType intention runIndex envs
          1 maxIterations none none).map (fun pr => pr.2) := by
      simp [inferenceRun]
    rw [hmap] at hget ⊢
    rw [List.getElem?_map] at hget
    cases hx : (loopAux task outputDir structType intention runIndex envs
        1 maxIterations none none)[i]? with
    | none => rw [hx] at hget; simp at hget
    | some pr =>
      rw [hx] at hget
      have hpr : pr.2 = r := by simpa using hget
      have := loopAux_success_only_last task outputDir structType intention
        runIndex envs maxIterations 1 none none i pr hx (by rw [hpr]; exact hsucc)
      simpa [List.length_map] using this

/-- Witness for `repair_loop_stops_at_first_success` with budget 1 and an
environment where the first iteration succeeds and is oracle-confirmed. -/
theorem repair_loop_stops_at_first_success_witness :
    (inferenceRun "T" "output" "框架" "模态分析" 0 1
        (fun _ => envRepairOk)).iterations.length ≤ 1 ∧
    ∀ (i : Nat) (r : IterationInfo),
      (inferenceRun "T" "output" "框架" "模态分析" 0 1
          (fun _ => envRepairOk)).iterations[i]? = some r →
      r.success = true →
      i + 1 = (inferenceRun "T" "output" "框架" "模态分析" 0 1
          (fun _ => envRepairOk)).iterations.length :=
  repair_loop_stops_at_first_success "T" "output" "框架" "模态分析" 0 1
    (fun _ => envRepairOk) (by decide)

/-- Claim C7 (amended): (a) the iteration-1 prompt (previous code `none`)
is always the task-only template `firstGenPrompt`; (b) whenever an
iteration completes the generate–save–run–classify path and fails normally
— recording a non-empty cleaned previous code `c` and a non-empty failure
reason `e` (the classification reason, or the raw stderr when
classification yielded none, per `pyOr`) — and at least one iteration
remains, the next iteration's synthesis prompt contains both `c` and `e`.
When the previous iteration instead aborted with an exception,
`previous_code` is not updated, so with no earlier artifact the next
prompt falls back to the task-only form (see the counterexample). -/
theorem repair_prompt_context_amended :
    (∀ (task outputDir structType intention : String) (runIndex : Nat)
       (envs : Nat → IterEnv) (fuel : Nat) (pe : Option String),
       ∃ record,
         (loopAux task outputDir structType intention runIndex envs
             1 (fuel + 1) none pe)[0]? = some (firstGenPrompt task, record)) ∧
    (∀ (task outputDir structType intention : String) (runIndex : Nat)
       (envs : Nat → IterEnv) (iteration fuel : Nat) (pc pe : Option String)
       {record : IterationInfo} (c e : String),
       1 ≤ iteration → c ≠ "" → e ≠ "" →
       iterStepKind outputDir structType intention runIndex iteration
           (envs iteration) = StepKind.failNormal record (some c) (some e) →
       ∃ pr,
         (loopAux task outputDir structType intention runIndex envs
             iteration (fuel + 2) pc pe)[1]? = some pr ∧
         containsSubB c pr.1 = true ∧ containsSubB e pr.1 = true) := by
  constructor
  · intro task outputDir structType intention runIndex envs fuel pe
    obtain ⟨record, hr⟩ :=
      loopAux_head_prompt task outputDir structType intention runIndex envs
        fuel 1 none pe
    refine ⟨record, ?_⟩
    rw [hr]
    simp [generateCodePrompt, pyFalsy]
  · intro task outputDir structType intention runIndex envs iteration fuel
      pc pe record c e hiter hc he hstep
    have hpos : 0 < fuel + 1 := Nat.succ_pos fuel
    rw [loopAux]
    simp only [hstep, if_pos hpos]
    obtain ⟨record2, hr2⟩ :=
      loopAux_head_prompt task outputDir structType intention runIndex envs
        fuel (iteration + 1) (some c) (some e)
    have hform : generateCodePrompt task (iteration + 1) (some c) (some e) =
        repairGenPrompt task c e := by
      have h1 : (iteration + 1 == 1) = false := by
        cases hx : iteration + 1 == 1
        · rfl
        · have : iteration + 1 = 1 := by simpa using hx
          omega
      have h2 : (c == "") = false := by
        cases hx : c == ""
        · rfl
        · have : c = "" := by simpa using hx
          exact absurd this hc
      simp [generateCodePrompt, pyFalsy, h1, h2, pyShow]
    refine ⟨(generateCodePrompt task (iteration + 1) (some c) (some e), record2),
      ?_, ?_, ?_⟩
    · simpa using hr2
    · rw [hform]
      apply containsSubB_intro
      simp only [repairGenPrompt, String.data_append, List.append_assoc]
      exact infix_append_left _ (infix_append_left _ (infix_append_left _
        infix_append_leftmost))
    · rw [hform]
      apply containsSubB_intro
      simp only [repairGenPrompt, String.data_append, List.append_assoc]
      exact infix_append_left _ (infix_append_left _ (infix_append_left _
        (infix_append_left _ (infix_append_left _ infix_append_leftmost))))

/-- Witness for `repair_prompt_context_amended` (part b) at the concrete
normally-failing iteration environment `envRepairFail`. -/
theorem repair_prompt_context_amended_witness :
    ∃ pr,
      (loopAux "T" "output" "框架" "模态分析" 0 (fun _ => envRepairFail)
          1 2 none none)[1]? = some pr ∧
      containsSubB "ZQ" pr.1 = true ∧ containsSubB "失败：原因X" pr.1 = true :=
  repair_prompt_context_amended.2 "T" "output" "框架" "模态分析" 0
    (fun _ => envRepairFail) 1 0 none none "ZQ" "失败：原因X"
    (by decide) (by decide) (by decide) rfl

set_option maxRecDepth 4096 in
/-- Claim C7 counterexample: iteration 1 generates code "ZQZQ" but saving
raises ("磁盘错误"), so the iteration fails (record verdict false) without
updating `previous_code`; iteration 2 — an iteration with index > 1 that
follows a failed iteration — then uses the task-only prompt, which
contains neither the previously generated code "ZQZQ" nor the recorded
failure reason "磁盘错误", contradicting the claim as stated. -/
theorem repair_prompt_context_counterexample :
    (loopAux "T" "output" "框架" "静力分析" 0 (fun _ => envRepairSaveFail)
        1 2 none none).length = 2 ∧
    ((loopAux "T" "output" "框架" "静力分析" 0 (fun _ => envRepairSaveFail)
        1 2 none none)[0]?).map (fun pr => pr.2.success) = some false ∧
    ((loopAux "T" "output" "框架" "静力分析" 0 (fun _ => envRepairSaveFail)
        1 2 none none)[1]?).map (fun pr => pr.1) = some (firstGenPrompt "T") ∧
    containsSubB "ZQZQ" (firstGenPrompt "T") = false ∧
    containsSubB "磁盘错误" (firstGenPrompt "T") = false := by
  refine ⟨?_, ?_, ?_, by decide, by decide⟩ <;> decide

/-- Claim C6: the CLI exits 0 exactly when the arguments and agent
construction are fine and either the aggregate `success` flag is true or
`execution_result.success` is truthy; in every other non-crash case
(including a raised `process_single_turn`, caught by the generic handler)
it exits 1, and 0/1 are the only exit codes of this path. -/
theorem main_exit_code_spec (argvCount : Nat) (initOk : Bool)
    (tclFilePath userCommand exe : String) (env : AgentEnv) :
    (mainExitCode argvCount initOk tclFilePath userCommand exe env = 0 ↔
      (3 ≤ argvCount ∧ initOk = true ∧
        match processSingleTurn tclFilePath userCommand exe env with
        | (Except.ok res, _) => res.success = true ∨ execResSuccess res = true
        | (Except.error _, _) => False)) ∧
    (mainExitCode argvCount initOk tclFilePath userCommand exe env = 0 ∨
     mainExitCode argvCount initOk tclFilePath userCommand exe env = 1) := by
  by_cases ha : argvCount < 3
  · have hm : mainExitCode argvCount initOk tclFilePath userCommand exe env = 1 := by
      unfold mainExitCode
      rw [if_pos ha]
    rw [hm]
    refine ⟨⟨fun h => absurd h one_ne_zero, ?_⟩, Or.inr rfl⟩
    rintro ⟨h3, _, _⟩
    omega
  · cases initOk with
    | false =>
      have hm : mainExitCode argvCount false tclFilePath userCommand exe env = 1 := by
        unfold mainExitCode
        rw [if_neg ha]
        rfl
      rw [hm]
      refine ⟨⟨fun h => absurd h one_ne_zero, ?_⟩, Or.inr rfl⟩
      rintro ⟨_, hinit, _⟩
      exact (Bool.false_ne_true hinit).elim
    | true =>
      rcases hps : processSingleTurn tclFilePath userCommand exe env with ⟨r, tr⟩
      cases r with
      | error msg =>
        have hm : mainExitCode argvCount true tclFilePath userCommand exe env = 1 := by
          unfold mainExitCode
          rw [if_neg ha]
          simp only [Bool.not_true, Bool.false_eq_true, if_false, hps]
        rw [hm]
        refine ⟨⟨fun h => absurd h one_ne_zero, ?_⟩, Or.inr rfl⟩
        rintro ⟨_, _, hfalse⟩
        simp only [hps] at hfalse
      | ok res =>
        have hm : mainExitCode argvCount true tclFilePath userCommand exe env =
            if (res.success || execResSuccess res) = true then 0 else 1 := by
          unfold mainExitCode
          rw [if_neg ha]
          simp only [Bool.not_true, Bool.false_eq_true, if_false, hps]
        rw [hm]
        constructor
        · constructor
          · intro h
            by_cases hb : (res.success || execResSuccess res) = true
            · refine ⟨by omega, rfl, ?_⟩
              simp only [hps]
              simpa using hb
            · rw [if_neg hb] at h
              exact absurd h one_ne_zero
          · rintro ⟨_, _, hor⟩
            simp only [hps] at hor
            have hb : (res.success || execResSuccess res) = true := by
              rcases hor with h | h <;> simp [h]
            rw [if_pos hb]
        · by_cases hb : (res.success || execResSuccess res) = true
          · left
            rw [if_pos hb]
          · right
            rw [if_neg hb]

/-- Claim C3 counterexample: with a failing TCL read, the Analyze (Think)
stage fails, yet the Synthesize (Code) stage is still entered — and its
prompt construction raises the uncaught `KeyError: tcl_content`, so the
run aborts and the Summarize stage never executes.  The ghost trace shows
exactly the Think and Code stage bodies ran. -/
theorem gated_workflow_think_gate_counterexample :
    processSingleTurn "missing.tcl" "进行静力分析" "python3" envThinkFail =
      (Except.error "KeyError: tcl_content", [Stage.think, Stage.code]) := rfl

/-- Claim C3 (amended): in `process_single_turn`, the gating holds from
Synthesize onwards — when the Code step failed, Extract's body is never
entered; when Extract failed (or was skip-marked), Write's body is never
entered; when Write failed (or was skip-marked), Exec's body is never
entered — and whenever the workflow returns normally the Summarize block
runs and Think did not fail.  But when the Analyze (Think) step fails, the
Synthesize (Code) step is still entered and the run aborts with the
uncaught `KeyError`, so Summarize does *not* execute on such runs. -/
theorem gated_workflow_gating_amended (tclFilePath userCommand exe : String)
    (env : AgentEnv) :
    (match processSingleTurn tclFilePath userCommand exe env with
     | (Except.ok res, tr) =>
        res.failedSteps.contains "think" = false ∧
        Stage.summarize ∈ tr ∧
        (res.failedSteps.contains "code" = true → Stage.extract ∉ tr) ∧
        (res.failedSteps.contains "extract_code" = true → Stage.write ∉ tr) ∧
        (res.failedSteps.contains "write" = true → Stage.exec ∉ tr)
     | (Except.error _, tr) => tr = [Stage.think, Stage.code]) := by
  obtain ⟨rt, th, co, wo, we, ex, ts⟩ := env
  cases rt with
  | error msg => simp [processSingleTurn]
  | ok content =>
    cases th with
    | none => simp [processSingleTurn, pyOpt]
    | some ths =>
      cases hth : ths == "" with
      | true => simp [processSingleTurn, pyOpt, hth]
      | false =>
        cases co with
        | none =>
          simp [processSingleTurn, pyOpt, hth]
          try decide
        | some cos =>
          cases hco : cos == "" with
          | true =>
            simp [processSingleTurn, pyOpt, hth, hco]
            try decide
          | false =>
            cases hex : pyStrip (extractPythonCode cos) == "" with
            | true =>
              simp [processSingleTurn, pyOpt, hth, hco, hex]
              try decide
            | false =>
              cases wo with
              | false =>
                simp [processSingleTurn, pyOpt, hth, hco, hex]
                try decide
              | true =>
                cases ex with
                | completed rc out err =>
                  cases hrc : rc == 0 with
                  | true =>
                    simp [processSingleTurn, pyOpt, hth, hco, hex, hrc]
                    try decide
                  | false =>
                    simp [processSingleTurn, pyOpt, hth, hco, hex, hrc]
                    try decide
                | timeout =>
                  simp [processSingleTurn, pyOpt, hth, hco, hex]
                  try decide
                | notFound =>
                  simp [processSingleTurn, pyOpt, hth, hco, hex]
                  try decide
                | exnOther msg =>
                  simp [processSingleTurn, pyOpt, hth, hco, hex]
                  try decide

/-- Claim C5: whenever `process_single_turn` returns normally, the
aggregate `success` flag is true iff none of the four stages Think (the
spec's Analyze), Code (Synthesize), Extract and Write (Persist) failed and
the Exec stage completed with return code 0 (it then stored an
`execution_result` with `returnCode = 0`). -/
theorem workflow_success_iff (tclFilePath userCommand exe : String)
    (env : AgentEnv) :
    (match processSingleTurn tclFilePath userCommand exe env with
     | (Except.ok res, _) =>
        res.success = true ↔
          (res.failedSteps.contains "think" = false ∧
           res.failedSteps.contains "code" = false ∧
           res.failedSteps.contains "extract_code" = false ∧
           res.failedSteps.contains "write" = false ∧
           res.executionResult.map (fun er => er.returnCode) = some 0)
     | (Except.error _, _) => True) := by
  obtain ⟨rt, th, co, wo, we, ex, ts⟩ := env
  cases rt with
  | error msg => simp [processSingleTurn]
  | ok content =>
    cases th with
    | none => simp [processSingleTurn, pyOpt]
    | some ths =>
      cases hth : ths == "" with
      | true => simp [processSingleTurn, pyOpt, hth]
      | false =>
        cases co with
        | none =>
          simp [processSingleTurn, pyOpt, hth]
          try decide
        | some cos =>
          cases hco : cos == "" with
          | true =>
            simp [processSingleTurn, pyOpt, hth, hco]
            try decide
          | false =>
            cases hex : pyStrip (extractPythonCode cos) == "" with
            | true =>
              simp [processSingleTurn, pyOpt, hth, hco, hex]
              try decide
            | false =>
              cases wo with
              | false =>
                simp [processSingleTurn, pyOpt, hth, hco, hex]
                try decide
              | true =>
                cases ex with
                | completed rc out err =>
                  cases hrc : rc == 0 with
                  | true =>
                    have hrc0 : rc = 0 := by simpa using hrc
                    simp [processSingleTurn, pyOpt, hth, hco, hex, hrc, hrc0]
                    try decide
                  | false =>
                    have hrc0 : rc ≠ 0 := by simpa using hrc
                    simp [processSingleTurn, pyOpt, hth, hco, hex, hrc, hrc0]
                    try decide
                | timeout =>
                  simp [processSingleTurn, pyOpt, hth, hco, hex]
                  try decide
                | notFound =>
                  simp [processSingleTurn, pyOpt, hth, hco, hex]
                  try decide
                | exnOther msg =>
                  simp [processSingleTurn, pyOpt, hth, hco, hex]
                  try decide

/-- Claim C10 (amended): (a) on fence-less input (no ` ``` ` anywhere),
`extract_python_code` returns the whole stripped response, so the Extract
step's failure test `pyStrip code == ""` holds exactly when the response
was empty or whitespace-only; (b) when ` ```python ` blocks are present,
the returned body is the stripped text of a *```python* capture of
maximal length — generic ` ``` ` blocks are only consulted when no
` ```python ` block matches (see the counterexample). -/
theorem extract_fenceless_amended :
    (∀ text : String, ¬ (fenceTick <:+: text.data) →
      extractPythonCode text = pyStrip text ∧
      (pyStrip (extractPythonCode text) = "" ↔ pyStrip text = "")) ∧
    (∀ text : String, reFindAll "python".data text.data ≠ [] →
      ∃ cap ∈ reFindAll "python".data text.data,
        extractPythonCode text = ⟨pyStripL cap⟩ ∧
        ∀ d ∈ reFindAll "python".data text.data, d.length ≤ cap.length) := by
  constructor
  · intro text h
    have h1 : reFindAll "python".data text.data = [] :=
      findAllFence_eq_nil text.data.length text.data h
    have h2 : reFindAll ([] : List Char) text.data = [] :=
      findAllFence_eq_nil text.data.length text.data h
    have htick : fenceTick <+: "```python".data := by decide
    have hp1 : "```python".data.isPrefixOf (pyStripL text.data) = false := by
      cases hx : "```python".data.isPrefixOf (pyStripL text.data)
      · rfl
      · have hpre := List.isPrefixOf_iff_prefix.mp hx
        have : fenceTick <:+: text.data :=
          ((htick.trans hpre).isInfix).trans (pyStripL_within text.data)
        exact absurd this h
    have hp2 : fenceTick.isPrefixOf (pyStripL text.data) = false := by
      cases hx : fenceTick.isPrefixOf (pyStripL text.data)
      · rfl
      · have hpre := List.isPrefixOf_iff_prefix.mp hx
        have : fenceTick <:+: text.data :=
          (hpre.isInfix).trans (pyStripL_within text.data)
        exact absurd this h
    have hval : extractPythonCode text = pyStrip text := by
      simp only [extractPythonCode, h1, h2, hp1, hp2]
      rfl
    refine ⟨hval, ?_⟩
    rw [hval]
    have : pyStrip (pyStrip text) = pyStrip text := by
      show (⟨pyStripL (pyStrip text).data⟩ : String) = pyStrip text
      have : (pyStrip text).data = pyStripL text.data := rfl
      rw [this, pyStripL_idem]
      rfl
    rw [this]
  · intro text hne
    cases hm : reFindAll "python".data text.data with
    | nil => exact absurd hm hne
    | cons cap caps =>
      refine ⟨maxByLen caps cap, ?_, ?_, ?_⟩
      · rcases maxByLen_mem caps cap with h | h
        · rw [h]; exact List.mem_cons_self _ _
        · exact List.mem_cons_of_mem _ h
      · simp only [extractPythonCode, hm]
      · intro d hd
        rcases List.mem_cons.mp hd with rfl | hdc
        · exact (maxByLen_le caps d).1
        · exact (maxByLen_le caps cap).2 d hdc

/-- Witness for `extract_fenceless_amended` at a fence-less response and
at a single-block fenced response. -/
theorem extract_fenceless_amended_witness :
    (extractPythonCode "hello" = pyStrip "hello" ∧
      (pyStrip (extractPythonCode "hello") = "" ↔ pyStrip "hello" = "")) ∧
    (∃ cap ∈ reFindAll "python".data ("```python\nXY\n```" : String).data,
      extractPythonCode "```python\nXY\n```" = ⟨pyStripL cap⟩ ∧
      ∀ d ∈ reFindAll "python".data ("```python\nXY\n```" : String).data,
        d.length ≤ cap.length) :=
  ⟨extract_fenceless_amended.1 "hello" (by decide),
   extract_fenceless_amended.2 "```python\nXY\n```" (by decide)⟩

set_option maxRecDepth 4096 in
/-- Claim C10 counterexample: on a response holding a 10-character generic
fenced block followed by a 1-character ` ```python ` block,
`extract_python_code` returns the short "B" — the ` ```python ` pattern is
consulted first and `max(matches, key=len)` only ranks its own captures —
even though a strictly longer fenced block exists, contradicting "the
longest block is the one returned". -/
theorem extract_longest_block_counterexample :
    extractPythonCode "```\nAAAAAAAAAA\n```\n\n```python\nB\n```" = "B" ∧
    ("AAAAAAAAAA" : String).data ∈ reFindAll ([] : List Char)
      ("```\nAAAAAAAAAA\n```\n\n```python\nB\n```" : String).data ∧
    ("B" : String).data.length < ("AAAAAAAAAA" : String).data.length := by
  refine ⟨?_, ?_, ?_⟩ <;> decide
